import Mathlib

/-!
Shallow embedding of `q_learning_main.py`: a Q-learning core with linear
function approximation (per-action online linear regressors over a fixed
feature transform), epsilon-greedy action selection, and three episodic
training-loop variants.  Floats are modelled as rationals; the mutable
environment, the numpy RNG and Python exceptions are modelled by explicit
state passing, an explicit stream of uniform draws, and `Option`.
Plotting, `render` and the statistics sink are external boundary
collaborators and are not part of the embedded state.
-/

namespace QL

/-- A raw environment observation (a vector of reals). -/
abbrev StateVec := List ℚ

/-- A featurized state (output of the scaler + featurizer pipeline). -/
abbrev FeatureVec := List ℚ

/-- The gym environment boundary: `reset` and `step` are state transformers
over an abstract internal state `σ`; `step` returns (next_state, reward,
done) plus the new internal state (the `info` dict is never read by the
source and is omitted); `nA` is `env.action_space.n`. -/
structure Env (σ : Type) where
  reset : σ → StateVec × σ
  step : Nat → σ → (StateVec × ℚ × Bool) × σ
  nA : Nat

/-- One linear model (sklearn `SGDRegressor`): a weight vector, an
intercept, and whether it has been fitted at least once (an unfitted model
raises `NotFittedError` on `predict`, modelled as `none`). -/
structure SGDRegressor where
  coef : List ℚ
  intercept : ℚ
  fitted : Bool
deriving DecidableEq

/-- sklearn's default constant learning rate `eta0 = 0.01`. -/
def eta0 : ℚ := 1 / 100

/-- Dot product of two real vectors. -/
def dot (ws xs : List ℚ) : ℚ := (List.zipWith (fun w x => w * x) ws xs).sum

/-- A freshly constructed, unfitted `SGDRegressor(learning_rate="constant")`. -/
def SGDRegressor.init : SGDRegressor := { coef := [], intercept := 0, fitted := false }

/-- The linear prediction `w · x + b` of a model. -/
def SGDRegressor.rawPredict (m : SGDRegressor) (x : FeatureVec) : ℚ :=
  dot m.coef x + m.intercept

/-- `model.predict([x])[0]`: raises (`none`) when the model is unfitted. -/
def SGDRegressor.predict (m : SGDRegressor) (x : FeatureVec) : Option ℚ :=
  if m.fitted then some (m.rawPredict x) else none

/-- `model.partial_fit([x], [y])`: one online gradient step of the library
regressor toward target `y` (the first call also allocates a zero weight
vector of the feature dimension and marks the model fitted; the library's
internal regularization details are outside this repository and the claims
depend only on linearity, statefulness, and the fitted flag). -/
def SGDRegressor.onlineFit (m : SGDRegressor) (x : FeatureVec) (y : ℚ) : SGDRegressor :=
  let w := if m.fitted then m.coef else List.replicate x.length 0
  let err := dot w x + m.intercept - y
  { coef := List.zipWith (fun wi xi => wi - eta0 * err * xi) w x,
    intercept := m.intercept - eta0 * err,
    fitted := true }

/-- The value-function approximator: one linear model per action (the
source hardcodes three), plus the frozen scaler and featurizer.  The
Python object also aliases `env`; environment effects are made explicit by
passing the environment state in and out of `Estimator.construct`. -/
structure Estimator where
  models : List SGDRegressor
  scaler : StateVec → StateVec
  featurizer : StateVec → FeatureVec

/-- `Estimator.featurize_state`: scale then featurize one observation. -/
def Estimator.featurize_state (e : Estimator) (state : StateVec) : FeatureVec :=
  e.featurizer (e.scaler state)

/-- The warm-up loop of `Estimator.__init__`: `for _ in range(n)`, build a
fresh regressor, call `partial_fit` on it with the featurized result of
`env.reset()` and target 0, and collect it.  Returns the models and the
environment state after the `n` resets. -/
def warmupModels {σ : Type} (env : Env σ) (scaler : StateVec → StateVec)
    (featurizer : StateVec → FeatureVec) : Nat → σ → List SGDRegressor × σ
  | 0, s => ([], s)
  | n + 1, s =>
    let r := env.reset s
    let m := SGDRegressor.init.onlineFit (featurizer (scaler r.1)) 0
    let rest := warmupModels env scaler featurizer n r.2
    (m :: rest.1, rest.2)

/-- `Estimator.__init__(env, scaler, featurizer)`: stores the transforms
and builds the hardcoded `range(3)` warm-fitted models, resetting the
environment once per model. -/
def Estimator.construct {σ : Type} (env : Env σ) (scaler : StateVec → StateVec)
    (featurizer : StateVec → FeatureVec) (s : σ) : Estimator × σ :=
  let r := warmupModels env scaler featurizer 3 s
  ({ models := r.1, scaler := scaler, featurizer := featurizer }, r.2)

/-- The all-actions prediction `[m.predict([fv]) for m in self.models]`:
`none` when any model is unfitted. -/
def Estimator.qValues (e : Estimator) (s : StateVec) : Option (List ℚ) :=
  e.models.mapM (fun m => m.predict (e.featurize_state s))

/-- Python truthiness test `not a` on the optional action argument: true
exactly when `a` is `None` or the integer `0`. -/
def noneOrZero : Option Nat → Bool
  | none => true
  | some n => n == 0

/-- `Estimator.predict(s, a=None)`: the source dispatches on `if not a:`,
so both `a=None` and `a=0` take the all-actions branch (`Sum.inl`); other
actions take the scalar branch (`Sum.inr`); an out-of-range action raises
(`none`), as does an unfitted model. -/
def Estimator.predict (e : Estimator) (s : StateVec) (a : Option Nat) :
    Option (List ℚ ⊕ ℚ) :=
  if noneOrZero a then
    (e.qValues s).map Sum.inl
  else
    match a with
    | some i =>
      match e.models[i]? with
      | some m => (m.predict (e.featurize_state s)).map Sum.inr
      | none => none
    | none => none

/-- `Estimator.update(s, a, y)`: one `partial_fit` step on action `a`'s
model toward target `y`; an out-of-range action raises (`none`). -/
def Estimator.update (e : Estimator) (s : StateVec) (a : Nat) (y : ℚ) : Option Estimator :=
  match e.models[a]? with
  | some m =>
    some { e with models := e.models.set a (m.onlineFit (e.featurize_state s) y) }
  | none => none

/-- `np.argmax`: index of the first occurrence of the maximum entry. -/
def argmaxIdx : List ℚ → Nat
  | [] => 0
  | [_] => 0
  | x :: y :: ys =>
    if (y :: ys).getD (argmaxIdx (y :: ys)) 0 > x then argmaxIdx (y :: ys) + 1 else 0

/-- `np.random.choice(np.arange(len(p)), p=p)` driven by one uniform draw
`r ∈ [0,1)`: inverse-CDF sampling over the probability vector. -/
def sampleChoice : List ℚ → ℚ → Nat
  | [], _ => 0
  | p :: ps, r => if r < p then 0 else sampleChoice ps (r - p) + 1

/-- `epsilon_greedy_policy(observation, estimator, epsilon, nA)`: uniform
mass `ε/nA` everywhere plus `1−ε` on the argmax of the predicted values;
`none` if the estimator raises. -/
def epsilon_greedy_policy (observation : StateVec) (e : Estimator) (epsilon : ℚ)
    (nA : Nat) : Option (List ℚ) :=
  match e.qValues observation with
  | none => none
  | some q_values =>
    let A := List.replicate nA (epsilon / (nA : ℚ))
    let best_action := argmaxIdx q_values
    some (A.set best_action (A.getD best_action 0 + (1 - epsilon)))

/-- `greedy_policy(estimator, nA)`: returns the closure `policy_maker`
mapping an observation to the one-hot distribution on the argmax action. -/
def greedy_policy (e : Estimator) (nA : Nat) : StateVec → Option (List ℚ) :=
  fun observation =>
    match e.qValues observation with
    | none => none
    | some q_values =>
      let A := List.replicate nA (0 : ℚ)
      let best_action := argmaxIdx q_values
      some (A.set best_action (A.getD best_action 0 + 1))

/-- The effective exploration rate `epsilon * epsilon_decay**i` passed to
`epsilon_greedy_policy` at episode index `i` by every training loop. -/
def eps_eff (epsilon epsilon_decay : ℚ) (i : Nat) : ℚ := epsilon * epsilon_decay ^ i

/-- The inner `for d in range(2000)` loop of `q_learning`: at entry, `fuel`
iterations of the range remain and `d` environment steps have been taken.
Each iteration samples an action (using the draw for global step `d`),
steps the environment, and on `done` breaks without computing a reward or
updating; otherwise it updates toward `reward_fn(state) + γ·max Q(next)`
and advances.  Returns the estimator, the environment state, and the
number of `env.step` calls made; `none` if a library call raises. -/
def q_learning_loop {σ : Type} (env : Env σ) (reward_fn : StateVec → ℚ)
    (discount_factor epsI : ℚ) (draws : Nat → ℚ) :
    Nat → Nat → Estimator → StateVec → σ → Option (Estimator × σ × Nat)
  | 0, d, e, _, s => some (e, s, d)
  | fuel + 1, d, e, state, s => do
    let prob ← epsilon_greedy_policy state e epsI env.nA
    let action := sampleChoice prob (draws d)
    let stp := env.step action s
    let next_state := stp.1.1
    let done := stp.1.2.2
    if done then
      some (e, stp.2, d + 1)
    else do
      let reward := reward_fn state
      let q_values_next ← e.qValues next_state
      let mx ← q_values_next.max?
      let td_target := reward + discount_factor * mx
      let e1 ← e.update state action td_target
      q_learning_loop env reward_fn discount_factor epsI draws fuel (d + 1) e1 next_state stp.2

/-- One episode of `q_learning`: the range(2000) loop started at `d = 0`. -/
def q_learning_episode {σ : Type} (env : Env σ) (reward_fn : StateVec → ℚ)
    (discount_factor epsI : ℚ) (draws : Nat → ℚ) (e : Estimator) (state : StateVec)
    (s : σ) : Option (Estimator × σ × Nat) :=
  q_learning_loop env reward_fn discount_factor epsI draws 2000 0 e state s

/-- The episode loop of `q_learning` over episode indices: each episode
resets the environment and runs the inner loop with exploration rate
`eps_eff epsilon epsilon_decay i`; collects the per-episode value of the
Python loop variable `d` after exit (which is one less than the number of
steps taken, as the body always runs at least once), mirroring
`d_vec[i] = d`. -/
def q_learning_outer {σ : Type} (env : Env σ) (reward_fn : StateVec → ℚ)
    (discount_factor epsilon epsilon_decay : ℚ) (draws : Nat → Nat → ℚ) :
    Nat → Nat → Estimator → σ → Option (Estimator × σ × List Nat)
  | 0, _, e, s => some (e, s, [])
  | n + 1, i, e, s => do
    let r := env.reset s
    let res ← q_learning_loop env reward_fn discount_factor
      (eps_eff epsilon epsilon_decay i) (draws i) 2000 0 e r.1 r.2
    let rest ← q_learning_outer env reward_fn discount_factor epsilon epsilon_decay draws
      n (i + 1) res.1 res.2.1
    some (rest.1, rest.2.1, (res.2.2 - 1) :: rest.2.2)

/-- `q_learning(...)`: runs all episodes and returns `np.min(d_vec)`
(raising, i.e. `none`, on an empty vector when `num_episodes = 0`). -/
def q_learning {σ : Type} (env : Env σ) (e : Estimator) (reward_fn : StateVec → ℚ)
    (num_episodes : Nat) (discount_factor epsilon epsilon_decay : ℚ)
    (draws : Nat → Nat → ℚ) (s : σ) : Option Nat := do
  let r ← q_learning_outer env reward_fn discount_factor epsilon epsilon_decay draws
    num_episodes 0 e s
  r.2.2.min?

/-- The inner `while not done:` loop of `q_learning_best_policy`: the
`done` flag is threaded and checked at the top; each iteration steps the
environment and always updates toward the bootstrapped target
`reward + γ·max Q(next)` using the environment's native reward, terminal
or not.  The Python loop has no step cap and may diverge, so the embedding
carries a fuel bound: `none` on fuel exhaustion (or a raising library
call).  `d` counts completed steps. -/
def q_learning_best_policy_loop {σ : Type} (env : Env σ) (discount_factor epsI : ℚ)
    (draws : Nat → ℚ) :
    Nat → Bool → Nat → Estimator → StateVec → σ → Option (Estimator × σ × Nat)
  | 0, done, d, e, _, s => if done then some (e, s, d) else none
  | fuel + 1, done, d, e, state, s =>
    if done then some (e, s, d)
    else do
        let prob ← epsilon_greedy_policy state e epsI env.nA
        let action := sampleChoice prob (draws d)
        let stp := env.step action s
        let next_state := stp.1.1
        let reward := stp.1.2.1
        let done1 := stp.1.2.2
        let q_values_next ← e.qValues next_state
        let mx ← q_values_next.max?
        let td_target := reward + discount_factor * mx
        let e1 ← e.update state action td_target
        q_learning_best_policy_loop env discount_factor epsI draws fuel done1 (d + 1)
          e1 next_state stp.2

/-- One episode of `q_learning_best_policy` (`done` starts `False`,
`d = 0`), with an explicit fuel bound on the uncapped `while` loop. -/
def q_learning_best_policy_episode {σ : Type} (env : Env σ) (discount_factor epsI : ℚ)
    (draws : Nat → ℚ) (fuel : Nat) (e : Estimator) (state : StateVec) (s : σ) :
    Option (Estimator × σ × Nat) :=
  q_learning_best_policy_loop env discount_factor epsI draws fuel false 0 e state s

/-- The inner `while not done and d <= 2000:` loop of
`q_learning_testing_rewards`: the loop condition is checked at the top;
each iteration steps the environment, reads the injected reward
`reward_fn(state)` on the pre-transition state, and always updates toward
`reward + γ·max Q(next)`, terminal or not, then increments `d`.  Since `d`
starts at 0 and the guard admits `d = 2000`, at most 2001 iterations run;
the fuel argument is only a structural-recursion bound and `none` on fuel
exhaustion is unreachable from the episode entry point. -/
def q_learning_testing_rewards_loop {σ : Type} (env : Env σ) (reward_fn : StateVec → ℚ)
    (discount_factor epsI : ℚ) (draws : Nat → ℚ) :
    Nat → Bool → Nat → Estimator → StateVec → σ → Option (Estimator × σ × Nat)
  | 0, done, d, e, _, s => if done ∨ 2000 < d then some (e, s, d) else none
  | fuel + 1, done, d, e, state, s =>
    if done ∨ 2000 < d then some (e, s, d)
    else do
        let prob ← epsilon_greedy_policy state e epsI env.nA
        let action := sampleChoice prob (draws d)
        let stp := env.step action s
        let next_state := stp.1.1
        let done1 := stp.1.2.2
        let reward := reward_fn state
        let q_values_next ← e.qValues next_state
        let mx ← q_values_next.max?
        let td_target := reward + discount_factor * mx
        let e1 ← e.update state action td_target
        q_learning_testing_rewards_loop env reward_fn discount_factor epsI draws fuel
          done1 (d + 1) e1 next_state stp.2

/-- One episode of `q_learning_testing_rewards` (`done` starts `False`,
`d = 0`); fuel 2001 covers the maximal 2001 admitted iterations. -/
def q_learning_testing_rewards_episode {σ : Type} (env : Env σ)
    (reward_fn : StateVec → ℚ) (discount_factor epsI : ℚ) (draws : Nat → ℚ)
    (e : Estimator) (state : StateVec) (s : σ) : Option (Estimator × σ × Nat) :=
  q_learning_testing_rewards_loop env reward_fn discount_factor epsI draws 2001
    false 0 e state s

/-! ### Concrete fixtures used by witnesses and counterexamples -/

/-- An already-fitted zero linear model over the empty feature vector. -/
def zeroModel : SGDRegressor := { coef := [], intercept := 0, fitted := true }

/-- A concrete estimator with three fitted zero models, identity scaler
and a constant empty featurizer (all predictions are 0). -/
def e0 : Estimator :=
  { models := [zeroModel, zeroModel, zeroModel], scaler := id, featurizer := fun _ => [] }

/-- A three-action environment that terminates on every step. -/
def doneEnv : Env Unit :=
  { reset := fun s => ([0], s), step := fun _ s => (([0], 0, true), s), nA := 3 }

/-- A three-action environment that never terminates and always pays 0. -/
def neverDoneEnv : Env Unit :=
  { reset := fun s => ([0], s), step := fun _ s => (([0], 0, false), s), nA := 3 }

/-- Like `neverDoneEnv` but with native reward 7: identical transitions
and termination, different reward channel. -/
def neverDoneEnv7 : Env Unit :=
  { reset := fun s => ([0], s), step := fun _ s => (([0], 7, false), s), nA := 3 }

/-- A two-action environment (`action_space.n = 2`). -/
def twoActionEnv : Env Unit :=
  { reset := fun s => ([0], s), step := fun _ s => (([0], 0, true), s), nA := 2 }

/-- An environment whose internal state counts resets: each `reset`
returns a fresh, distinct observation. -/
def countEnv : Env ℚ :=
  { reset := fun s => ([s], s + 1), step := fun _ s => (([s], 0, true), s), nA := 3 }

/-- The constant-zero injected reward function. -/
def zeroReward : StateVec → ℚ := fun _ => 0

/-- The constant-seven injected reward function. -/
def sevenReward : StateVec → ℚ := fun _ => 7

/-- A uniform-draw stream that always returns 0. -/
def draws0 : Nat → ℚ := fun _ => 0

/-! ### Helper lemmas about the fixtures and the loops -/

theorem e0_qValues (st : StateVec) : e0.qValues st = some [0, 0, 0] := by
  simp [Estimator.qValues, e0, zeroModel, SGDRegressor.predict, SGDRegressor.rawPredict,
    Estimator.featurize_state, dot, List.mapM, List.mapM.loop]

theorem argmax000 : argmaxIdx [(0:ℚ), 0, 0] = 0 := by
  simp [argmaxIdx]

theorem egp_e0 (st : StateVec) : epsilon_greedy_policy st e0 0 3 = some [1, 0, 0] := by
  simp [epsilon_greedy_policy, e0_qValues, argmax000, List.replicate]

theorem sc100 : sampleChoice [(1:ℚ), 0, 0] 0 = 0 := by
  have h : (0:ℚ) < 1 := by norm_num
  simp [sampleChoice, h]

theorem max000 : ([(0:ℚ), 0, 0]).max? = some 0 := by
  simp [List.max?, List.foldl]

theorem upd_e0 (st : StateVec) : e0.update st 0 0 = some e0 := by
  simp [Estimator.update, e0, zeroModel, SGDRegressor.onlineFit, Estimator.featurize_state,
    dot, eta0]

/-- A `q_learning_best_policy` loop entered with the `done` flag set exits
at once without stepping. -/
theorem qlbp_loop_done {σ : Type} (env : Env σ) (γ epsI : ℚ) (draws : Nat → ℚ)
    (fuel d : Nat) (e : Estimator) (state : StateVec) (s : σ) :
    q_learning_best_policy_loop env γ epsI draws fuel true d e state s = some (e, s, d) := by
  cases fuel <;> simp [q_learning_best_policy_loop]

/-- A `q_learning_testing_rewards` loop entered with `done` set or the
step counter past the cap exits at once without stepping. -/
theorem qltr_loop_exit {σ : Type} (env : Env σ) (reward_fn : StateVec → ℚ)
    (γ epsI : ℚ) (draws : Nat → ℚ) (fuel : Nat) (done : Bool) (d : Nat)
    (e : Estimator) (state : StateVec) (s : σ) (hg : done = true ∨ 2000 < d) :
    q_learning_testing_rewards_loop env reward_fn γ epsI draws fuel done d e state s =
      some (e, s, d) := by
  cases fuel <;> rw [q_learning_testing_rewards_loop, if_pos hg]

/-- One non-exiting iteration of the `q_learning_testing_rewards` loop on
the zero fixtures is a no-op on the estimator and environment and
increments the step counter. -/
theorem qltr_e0_iter (fuel d : Nat) (hd : d ≤ 2000) :
    q_learning_testing_rewards_loop neverDoneEnv zeroReward 1 0 draws0 (fuel + 1) false d
      e0 [0] () =
    q_learning_testing_rewards_loop neverDoneEnv zeroReward 1 0 draws0 fuel false (d + 1)
      e0 [0] () := by
  have hnd : ¬((false : Bool) = true ∨ 2000 < d) := by
    simp
    omega
  rw [q_learning_testing_rewards_loop, if_neg hnd]
  simp [neverDoneEnv, egp_e0, sc100, max000, upd_e0, e0_qValues, draws0, zeroReward]

/-- On a never-terminating environment the `q_learning_testing_rewards`
loop runs until the counter passes the cap: started with `d + fuel = 2001`
it ends with the counter at 2001. -/
theorem qltr_e0_runs_out (fuel : Nat) : ∀ d : Nat, d + fuel = 2001 →
    q_learning_testing_rewards_loop neverDoneEnv zeroReward 1 0 draws0 fuel false d
      e0 [0] () = some (e0, (), 2001) := by
  induction fuel with
  | zero =>
    intro d hd
    have hd' : d = 2001 := by omega
    subst hd'
    rw [q_learning_testing_rewards_loop, if_pos (by omega)]
  | succ fuel ih =>
    intro d hd
    rw [qltr_e0_iter fuel d (by omega)]
    exact ih (d + 1) (by omega)

/-- The inner loop of `q_learning` takes at most `fuel` further
environment steps: the returned step count is bounded by `d + fuel`. -/
theorem q_learning_loop_steps_le {σ : Type} (env : Env σ) (reward_fn : StateVec → ℚ)
    (γ epsI : ℚ) (draws : Nat → ℚ) :
    ∀ (fuel d : Nat) (e : Estimator) (state : StateVec) (s : σ) (r : Estimator × σ × Nat),
      q_learning_loop env reward_fn γ epsI draws fuel d e state s = some r →
      r.2.2 ≤ d + fuel := by
  intro fuel
  induction fuel with
  | zero =>
    intro d e state s r h
    simp only [q_learning_loop, Option.some.injEq] at h
    subst h
    simp
  | succ fuel ih =>
    intro d e state s r h
    simp only [q_learning_loop] at h
    cases hp : epsilon_greedy_policy state e epsI env.nA with
    | none => rw [hp] at h; simp at h
    | some prob =>
      rw [hp] at h
      simp only [Option.bind_eq_bind, Option.some_bind] at h
      split at h
      · simp only [Option.some.injEq] at h
        have hr : r.2.2 = d + 1 := by rw [← h]
        omega
      · cases hq : (e.qValues (env.step (sampleChoice prob (draws d)) s).1.1) with
        | none => rw [hq] at h; simp at h
        | some qn =>
          rw [hq] at h
          simp only [Option.bind_eq_bind, Option.some_bind] at h
          cases hm : qn.max? with
          | none => rw [hm] at h; simp at h
          | some mx =>
            rw [hm] at h
            simp only [Option.bind_eq_bind, Option.some_bind] at h
            cases hu : e.update state (sampleChoice prob (draws d))
                (reward_fn state + γ * mx) with
            | none => rw [hu] at h; simp at h
            | some e1 =>
              rw [hu] at h
              simp only [Option.bind_eq_bind, Option.some_bind] at h
              have := ih (d + 1) e1 (env.step (sampleChoice prob (draws d)) s).1.1
                (env.step (sampleChoice prob (draws d)) s).2 r h
              omega

/-- The `q_learning_testing_rewards` loop never reports more than 2001
steps when entered with a counter at most 2001. -/
theorem qltr_loop_steps_le {σ : Type} (env : Env σ) (reward_fn : StateVec → ℚ)
    (γ epsI : ℚ) (draws : Nat → ℚ) :
    ∀ (fuel : Nat) (done : Bool) (d : Nat) (e : Estimator) (state : StateVec) (s : σ)
      (r : Estimator × σ × Nat), d ≤ 2001 →
      q_learning_testing_rewards_loop env reward_fn γ epsI draws fuel done d e state s =
        some r →
      r.2.2 ≤ 2001 := by
  intro fuel
  induction fuel with
  | zero =>
    intro done d e state s r hd h
    rw [q_learning_testing_rewards_loop] at h
    split at h
    · simp only [Option.some.injEq] at h
      have hr : r.2.2 = d := by rw [← h]
      omega
    · simp at h
  | succ fuel ih =>
    intro done d e state s r hd h
    rw [q_learning_testing_rewards_loop] at h
    split at h
    · simp only [Option.some.injEq] at h
      have hr : r.2.2 = d := by rw [← h]
      omega
    · rename_i hg
      have hd' : d ≤ 2000 := by
        by_contra hc
        exact hg (Or.inr (by omega))
      cases hp : epsilon_greedy_policy state e epsI env.nA with
      | none => rw [hp] at h; simp at h
      | some prob =>
        rw [hp] at h
        simp only [Option.bind_eq_bind, Option.some_bind] at h
        cases hq : (e.qValues (env.step (sampleChoice prob (draws d)) s).1.1) with
        | none => rw [hq] at h; simp at h
        | some qn =>
          rw [hq] at h
          simp only [Option.bind_eq_bind, Option.some_bind] at h
          cases hm : qn.max? with
          | none => rw [hm] at h; simp at h
          | some mx =>
            rw [hm] at h
            simp only [Option.bind_eq_bind, Option.some_bind] at h
            cases hu : e.update state (sampleChoice prob (draws d))
                (reward_fn state + γ * mx) with
            | none => rw [hu] at h; simp at h
            | some e1 =>
              rw [hu] at h
              simp only [Option.bind_eq_bind, Option.some_bind] at h
              exact ih (env.step (sampleChoice prob (draws d)) s).1.2.2 (d + 1) e1
                (env.step (sampleChoice prob (draws d)) s).1.1
                (env.step (sampleChoice prob (draws d)) s).2 r (by omega) h

/-- `np.argmax` of a nonempty vector is a valid index. -/
theorem argmaxIdx_lt_length : ∀ (l : List ℚ), l ≠ [] → argmaxIdx l < l.length
  | [_], _ => by simp [argmaxIdx]
  | x :: y :: ys, _ => by
    rw [argmaxIdx]
    split
    · have h := argmaxIdx_lt_length (y :: ys) (by simp)
      simpa using h
    · simp

/-- The entry at `np.argmax` is maximal. -/
theorem getD_le_argmaxIdx : ∀ (l : List ℚ) (j : Nat), j < l.length →
    l.getD j 0 ≤ l.getD (argmaxIdx l) 0
  | [], j, h => by simp at h
  | [x], j, h => by
    cases j with
    | zero => simp [argmaxIdx]
    | succ k => simp at h
  | x :: y :: ys, j, h => by
    by_cases hc : (y :: ys).getD (argmaxIdx (y :: ys)) 0 > x
    · have hax : argmaxIdx (x :: y :: ys) = argmaxIdx (y :: ys) + 1 := by
        rw [argmaxIdx, if_pos hc]
      rw [hax, List.getD_cons_succ]
      cases j with
      | zero => exact le_of_lt hc
      | succ k =>
        rw [List.getD_cons_succ]
        exact getD_le_argmaxIdx (y :: ys) k (by simpa using h)
    · have hax : argmaxIdx (x :: y :: ys) = 0 := by
        rw [argmaxIdx, if_neg hc]
      rw [hax, List.getD_cons_zero]
      cases j with
      | zero => simp
      | succ k =>
        rw [List.getD_cons_succ]
        exact le_trans (getD_le_argmaxIdx (y :: ys) k (by simpa using h)) (not_lt.mp hc)

/-- `np.argmax` returns the first occurrence of the maximum: every earlier
entry is strictly smaller. -/
theorem getD_lt_of_lt_argmaxIdx : ∀ (l : List ℚ) (j : Nat), j < argmaxIdx l →
    l.getD j 0 < l.getD (argmaxIdx l) 0
  | [], j, h => by simp [argmaxIdx] at h
  | [x], j, h => by simp [argmaxIdx] at h
  | x :: y :: ys, j, h => by
    by_cases hc : (y :: ys).getD (argmaxIdx (y :: ys)) 0 > x
    · have hax : argmaxIdx (x :: y :: ys) = argmaxIdx (y :: ys) + 1 := by
        rw [argmaxIdx, if_pos hc]
      rw [hax, List.getD_cons_succ]
      rw [hax] at h
      cases j with
      | zero => simpa using hc
      | succ k =>
        rw [List.getD_cons_succ]
        exact getD_lt_of_lt_argmaxIdx (y :: ys) k (by omega)
    · have hax : argmaxIdx (x :: y :: ys) = 0 := by
        rw [argmaxIdx, if_neg hc]
      rw [hax] at h
      omega

theorem getD_replicate_eq (c : ℚ) : ∀ (n j : Nat), j < n →
    (List.replicate n c).getD j 0 = c
  | n + 1, 0, _ => by simp [List.replicate_succ]
  | n + 1, j + 1, hj => by
    rw [List.replicate_succ, List.getD_cons_succ]
    exact getD_replicate_eq c n j (by omega)

theorem getD_set_replicate (c x : ℚ) : ∀ (n b j : Nat), b < n → j < n →
    ((List.replicate n c).set b x).getD j 0 = if j = b then x else c
  | n + 1, 0, 0, _, _ => by simp [List.replicate_succ]
  | n + 1, 0, j + 1, _, hj => by
    rw [List.replicate_succ, List.set_cons_zero, List.getD_cons_succ]
    rw [getD_replicate_eq c n j (by omega)]
    simp
  | n + 1, b + 1, 0, _, _ => by
    rw [List.replicate_succ, List.set_cons_succ, List.getD_cons_zero]
    simp
  | n + 1, b + 1, j + 1, hb, hj => by
    rw [List.replicate_succ, List.set_cons_succ, List.getD_cons_succ]
    rw [getD_set_replicate c x n b j (by omega) (by omega)]
    simp

theorem set_replicate_split (c x : ℚ) : ∀ (n b : Nat), b < n →
    (List.replicate n c).set b x =
      List.replicate b c ++ x :: List.replicate (n - (b + 1)) c
  | n + 1, 0, _ => by simp [List.replicate_succ]
  | n + 1, b + 1, hb => by
    rw [List.replicate_succ, List.set_cons_succ]
    rw [set_replicate_split c x n b (by omega)]
    simp [List.replicate_succ]

theorem sum_set_replicate (c x : ℚ) (n b : Nat) (hb : b < n) :
    ((List.replicate n c).set b x).sum = (n - 1 : Nat) * c + x := by
  rw [set_replicate_split c x n b hb]
  rw [List.sum_append, List.sum_cons, List.sum_replicate, List.sum_replicate]
  have hn : b + (n - (b + 1)) = n - 1 := by omega
  push_cast [nsmul_eq_mul]
  rw [← hn]
  push_cast
  ring

/-- Inverse-CDF sampling from a vector that is zero before a mass of 1
lands on the index of that mass, whatever the uniform draw in `[0,1)`. -/
theorem sampleChoice_zeros_then_one : ∀ (pre rest : List ℚ) (r : ℚ),
    (∀ y ∈ pre, y = 0) → 0 ≤ r → r < 1 →
    sampleChoice (pre ++ 1 :: rest) r = pre.length
  | [], rest, r, _, _, h1 => by
    simp [sampleChoice, h1]
  | p :: pre, rest, r, hz, h0, h1 => by
    have hp : p = 0 := hz p (by simp)
    subst hp
    rw [List.cons_append, sampleChoice]
    rw [if_neg (not_lt.mpr h0), sub_zero]
    rw [sampleChoice_zeros_then_one pre rest r (fun y hy => hz y (by simp [hy])) h0 h1]
    simp

/-- The inner `q_learning` loop never reads the environment's native
reward: two environments agreeing on observations, termination flags and
state transitions (but not rewards) drive it identically. -/
theorem ql_loop_reward_independent {σ : Type} (env env' : Env σ) (reward_fn : StateVec → ℚ)
    (γ epsI : ℚ) (draws : Nat → ℚ)
    (hnA : env'.nA = env.nA)
    (hobs : ∀ a t, (env'.step a t).1.1 = (env.step a t).1.1)
    (hdone : ∀ a t, (env'.step a t).1.2.2 = (env.step a t).1.2.2)
    (hst : ∀ a t, (env'.step a t).2 = (env.step a t).2) :
    ∀ (fuel d : Nat) (e : Estimator) (state : StateVec) (s : σ),
      q_learning_loop env' reward_fn γ epsI draws fuel d e state s =
      q_learning_loop env reward_fn γ epsI draws fuel d e state s := by
  intro fuel
  induction fuel with
  | zero => intro d e state s; simp [q_learning_loop]
  | succ fuel ih =>
    intro d e state s
    simp only [q_learning_loop, hnA, hobs, hdone, hst, ih]

/-- The inner `q_learning_testing_rewards` loop never reads the
environment's native reward either. -/
theorem qltr_loop_reward_independent {σ : Type} (env env' : Env σ)
    (reward_fn : StateVec → ℚ) (γ epsI : ℚ) (draws : Nat → ℚ)
    (hnA : env'.nA = env.nA)
    (hobs : ∀ a t, (env'.step a t).1.1 = (env.step a t).1.1)
    (hdone : ∀ a t, (env'.step a t).1.2.2 = (env.step a t).1.2.2)
    (hst : ∀ a t, (env'.step a t).2 = (env.step a t).2) :
    ∀ (fuel : Nat) (done : Bool) (d : Nat) (e : Estimator) (state : StateVec) (s : σ),
      q_learning_testing_rewards_loop env' reward_fn γ epsI draws fuel done d e state s =
      q_learning_testing_rewards_loop env reward_fn γ epsI draws fuel done d e state s := by
  intro fuel
  induction fuel with
  | zero => intro done d e state s; simp [q_learning_testing_rewards_loop]
  | succ fuel ih =>
    intro done d e state s
    simp only [q_learning_testing_rewards_loop, hnA, hobs, hdone, hst, ih]

/-- One non-terminal iteration of the reward-injected loops: the single
update issued targets `reward_fn state + γ · max Q(next_state)` with
`state` the pre-transition state. -/
theorem ql_iter_nonterminal {σ : Type} (env : Env σ) (reward_fn : StateVec → ℚ)
    (γ epsI : ℚ) (draws : Nat → ℚ) (fuel d : Nat) (e : Estimator)
    (state ns : StateVec) (rwd : ℚ) (s s' : σ) (prob qn : List ℚ) (mx : ℚ)
    (e1 : Estimator)
    (hp : epsilon_greedy_policy state e epsI env.nA = some prob)
    (hstep : env.step (sampleChoice prob (draws d)) s = ((ns, rwd, false), s'))
    (hq : e.qValues ns = some qn)
    (hm : qn.max? = some mx)
    (hu : e.update state (sampleChoice prob (draws d)) (reward_fn state + γ * mx) = some e1)
    (hd : d ≤ 2000) :
    q_learning_loop env reward_fn γ epsI draws (fuel + 1) d e state s =
      q_learning_loop env reward_fn γ epsI draws fuel (d + 1) e1 ns s'
    ∧ q_learning_testing_rewards_loop env reward_fn γ epsI draws (fuel + 1) false d
        e state s =
      q_learning_testing_rewards_loop env reward_fn γ epsI draws fuel false (d + 1)
        e1 ns s' := by
  constructor
  · simp only [q_learning_loop, hp, Option.bind_eq_bind, Option.some_bind, hstep, hq, hm, hu]
    simp
  · rw [q_learning_testing_rewards_loop, if_neg (by simp; omega)]
    simp only [hp, Option.bind_eq_bind, Option.some_bind, hstep, hq, hm, hu]

/-! ### The claims -/

/-- Claim C1 (code bug): `Estimator.predict(s, a)` is claimed to return the
scalar prediction for action `a` whenever `a ∈ [0, nA)` is given, including
`a = 0`.  The source dispatches on the Python-falsy test `if not a:`, which
treats `a = 0` like an omitted argument: `predict(s, 0)` returns the
all-actions vector (`Sum.inl`), exactly as `predict(s)` does, never the
scalar for action 0 — while `a = 1` does return the scalar branch. -/
theorem C1_predict_action_zero_takes_vector_branch (e : Estimator) (st : StateVec) :
    e.predict st (some 0) = e.predict st none
    ∧ e0.predict [0] (some 0) = some (Sum.inl [0, 0, 0])
    ∧ (∀ st' : StateVec, e0.predict st' (some 1) = some (Sum.inr 0)) := by
  refine ⟨rfl, ?_, ?_⟩
  · simp [Estimator.predict, noneOrZero, e0_qValues]
  · intro st'
    simp [Estimator.predict, noneOrZero, e0, zeroModel, SGDRegressor.predict,
      SGDRegressor.rawPredict, Estimator.featurize_state, dot]

/-- Claim C2, counterexample: on an environment that never signals `done`,
one `q_learning_testing_rewards` episode takes 2001 environment steps —
its guard `while not done and d <= 2000` admits the iteration with
`d = 2000` — so the claimed bound of 2000 steps per episode is violated. -/
theorem C2_counterexample_2001_steps :
    (q_learning_testing_rewards_episode neverDoneEnv zeroReward 1 0 draws0 e0 [0] ()).map
      (fun r => r.2.2) = some 2001 ∧ ¬(2001 ≤ 2000) := by
  constructor
  · rw [q_learning_testing_rewards_episode, qltr_e0_runs_out 2001 0 (by omega)]
    rfl
  · omega

/-- Claim C2 (amended): a `q_learning` episode takes at most 2000
environment steps (it breaks on `done` or when the `range(2000)` loop is
exhausted), while a `q_learning_testing_rewards` episode takes at most
2001 steps (its guard `d <= 2000` with `d` starting at 0 admits one extra
iteration); each episode ends on `done` or at its cap, whichever first. -/
theorem C2_amended_step_caps {σ₁ σ₂ : Type} (env₁ : Env σ₁) (env₂ : Env σ₂)
    (rf₁ rf₂ : StateVec → ℚ) (γ₁ epsI₁ γ₂ epsI₂ : ℚ) (draws₁ draws₂ : Nat → ℚ)
    (e₁ e₂ : Estimator) (st₁ st₂ : StateVec) (s₁ : σ₁) (s₂ : σ₂)
    (r₁ : Estimator × σ₁ × Nat) (r₂ : Estimator × σ₂ × Nat)
    (h1 : q_learning_episode env₁ rf₁ γ₁ epsI₁ draws₁ e₁ st₁ s₁ = some r₁)
    (h2 : q_learning_testing_rewards_episode env₂ rf₂ γ₂ epsI₂ draws₂ e₂ st₂ s₂ = some r₂) :
    r₁.2.2 ≤ 2000 ∧ r₂.2.2 ≤ 2001 := by
  constructor
  · have h := q_learning_loop_steps_le env₁ rf₁ γ₁ epsI₁ draws₁ 2000 0 e₁ st₁ s₁ r₁ h1
    omega
  · exact qltr_loop_steps_le env₂ rf₂ γ₂ epsI₂ draws₂ 2001 false 0 e₂ st₂ s₂ r₂
      (by omega) h2

/-- Witness for C2: a terminating run of `q_learning` (1 step) and the
capped run of `q_learning_testing_rewards` (2001 steps) both satisfy the
amended bounds. -/
theorem C2_amended_step_caps_witness :
    q_learning_episode doneEnv zeroReward 1 0 draws0 e0 [0] () = some (e0, (), 1)
    ∧ q_learning_testing_rewards_episode neverDoneEnv zeroReward 1 0 draws0 e0 [0] () =
        some (e0, (), 2001)
    ∧ (1 : Nat) ≤ 2000 ∧ (2001 : Nat) ≤ 2001 := by
  have h1 : q_learning_episode doneEnv zeroReward 1 0 draws0 e0 [0] () =
      some (e0, (), 1) := rfl
  have h2 : q_learning_testing_rewards_episode neverDoneEnv zeroReward 1 0 draws0 e0 [0] () =
      some (e0, (), 2001) := by
    rw [q_learning_testing_rewards_episode]
    exact qltr_e0_runs_out 2001 0 (by omega)
  have h := C2_amended_step_caps doneEnv neverDoneEnv zeroReward zeroReward 1 0 1 0
    draws0 draws0 e0 e0 [0] [0] () () (e0, (), 1) (e0, (), 2001) h1 h2
  exact ⟨h1, h2, h.1, h.2⟩

/-- Claim C3, counterexample: on an environment with two actions the
constructor still builds three models (`for _ in range(3)` is hardcoded),
so the claimed "exactly nA models for every environment" fails. -/
theorem C3_counterexample_two_action_env :
    (Estimator.construct twoActionEnv id (fun st => st) ()).1.models.length ≠
      twoActionEnv.nA := by
  decide

/-- Claim C3 (amended): a newly constructed `Estimator` owns exactly three
independent linear models regardless of the environment's action count;
this is one model per action only when `nA = 3`. -/
theorem C3_amended_always_three_models {σ : Type} (env : Env σ)
    (scaler : StateVec → StateVec) (featurizer : StateVec → FeatureVec) (s : σ) :
    (Estimator.construct env scaler featurizer s).1.models.length = 3 := rfl

/-- Claim C4: the three loop variants treat a terminal transition
differently, each as claimed: `q_learning` breaks on `done` before any
reward computation or update (the estimator comes back unchanged), while
`q_learning_best_policy` and `q_learning_testing_rewards` still issue the
one bootstrapped update toward `reward + γ · max Q(next_state)` — with the
native reward in the former and the injected reward in the latter. -/
theorem C4_terminal_transition_per_variant {σ : Type} (env : Env σ)
    (reward_fn : StateVec → ℚ) (γ epsI : ℚ) (draws : Nat → ℚ) (fuel d : Nat)
    (e : Estimator) (state ns : StateVec) (rwd : ℚ) (s s' : σ) (prob qn : List ℚ)
    (mx : ℚ) (e1 e2 : Estimator)
    (hp : epsilon_greedy_policy state e epsI env.nA = some prob)
    (hstep : env.step (sampleChoice prob (draws d)) s = ((ns, rwd, true), s'))
    (hq : e.qValues ns = some qn)
    (hm : qn.max? = some mx)
    (hu1 : e.update state (sampleChoice prob (draws d)) (rwd + γ * mx) = some e1)
    (hu2 : e.update state (sampleChoice prob (draws d)) (reward_fn state + γ * mx) = some e2)
    (hd : d ≤ 2000) :
    q_learning_loop env reward_fn γ epsI draws (fuel + 1) d e state s = some (e, s', d + 1)
    ∧ q_learning_best_policy_loop env γ epsI draws (fuel + 1) false d e state s =
        some (e1, s', d + 1)
    ∧ q_learning_testing_rewards_loop env reward_fn γ epsI draws (fuel + 1) false d
        e state s = some (e2, s', d + 1) := by
  refine ⟨?_, ?_, ?_⟩
  · simp [q_learning_loop, hp, hstep]
  · rw [q_learning_best_policy_loop, if_neg (by simp)]
    simp only [hp, Option.bind_eq_bind, Option.some_bind, hstep, hq, hm, hu1]
    exact qlbp_loop_done env γ epsI draws fuel (d + 1) e1 ns s'
  · rw [q_learning_testing_rewards_loop, if_neg (by simp; omega)]
    simp only [hp, Option.bind_eq_bind, Option.some_bind, hstep, hq, hm, hu2]
    exact qltr_loop_exit env reward_fn γ epsI draws fuel true (d + 1) e2 ns s' (Or.inl rfl)

/-- Witness for C4: on a concrete immediately-terminating environment with
the zero estimator the three loops return exactly the claimed results. -/
theorem C4_terminal_transition_per_variant_witness :
    q_learning_loop doneEnv zeroReward 1 0 draws0 1 0 e0 [0] () = some (e0, (), 1)
    ∧ q_learning_best_policy_loop doneEnv 1 0 draws0 1 false 0 e0 [0] () =
        some (e0, (), 1)
    ∧ q_learning_testing_rewards_loop doneEnv zeroReward 1 0 draws0 1 false 0 e0 [0] () =
        some (e0, (), 1) := by
  have hsc : sampleChoice [(1:ℚ), 0, 0] (draws0 0) = 0 := sc100
  have hu1 : e0.update [0] (sampleChoice [(1:ℚ), 0, 0] (draws0 0)) ((0:ℚ) + 1 * 0) =
      some e0 := by
    rw [hsc]
    simp [upd_e0]
  have hu2 : e0.update [0] (sampleChoice [(1:ℚ), 0, 0] (draws0 0))
      (zeroReward [0] + 1 * 0) = some e0 := by
    rw [hsc]
    simp [upd_e0, zeroReward]
  exact C4_terminal_transition_per_variant doneEnv zeroReward 1 0 draws0 0 0 e0 [0] [0]
    0 () () [1, 0, 0] [0, 0, 0] 0 e0 e0 (egp_e0 [0]) rfl (e0_qValues [0]) max000
    hu1 hu2 (by omega)

/-- Claim C5: in the reward-injected loops (`q_learning` and
`q_learning_testing_rewards`) the TD target of each step uses the injected
reward evaluated on the pre-transition state — the single update of a
non-terminal iteration targets `reward_fn state + γ · max Q(next_state)`
with `state` the state before `env.step` — and the environment's native
reward is never read: environments differing only in rewards drive both
loops identically. -/
theorem C5_injected_reward_pretransition {σ : Type} (env env' : Env σ)
    (reward_fn : StateVec → ℚ) (γ epsI : ℚ) (draws : Nat → ℚ) (fuel d : Nat)
    (e : Estimator) (state ns : StateVec) (rwd : ℚ) (s s' : σ) (prob qn : List ℚ)
    (mx : ℚ) (e1 : Estimator)
    (hp : epsilon_greedy_policy state e epsI env.nA = some prob)
    (hstep : env.step (sampleChoice prob (draws d)) s = ((ns, rwd, false), s'))
    (hq : e.qValues ns = some qn)
    (hm : qn.max? = some mx)
    (hu : e.update state (sampleChoice prob (draws d)) (reward_fn state + γ * mx) = some e1)
    (hd : d ≤ 2000)
    (hnA : env'.nA = env.nA)
    (hobs : ∀ a t, (env'.step a t).1.1 = (env.step a t).1.1)
    (hdone : ∀ a t, (env'.step a t).1.2.2 = (env.step a t).1.2.2)
    (hst : ∀ a t, (env'.step a t).2 = (env.step a t).2) :
    (q_learning_loop env reward_fn γ epsI draws (fuel + 1) d e state s =
        q_learning_loop env reward_fn γ epsI draws fuel (d + 1) e1 ns s')
    ∧ (q_learning_testing_rewards_loop env reward_fn γ epsI draws (fuel + 1) false d
          e state s =
        q_learning_testing_rewards_loop env reward_fn γ epsI draws fuel false (d + 1)
          e1 ns s')
    ∧ (∀ (fuel' d' : Nat) (e' : Estimator) (state' : StateVec) (t : σ),
        q_learning_loop env' reward_fn γ epsI draws fuel' d' e' state' t =
        q_learning_loop env reward_fn γ epsI draws fuel' d' e' state' t)
    ∧ (∀ (fuel' : Nat) (done' : Bool) (d' : Nat) (e' : Estimator) (state' : StateVec)
        (t : σ),
        q_learning_testing_rewards_loop env' reward_fn γ epsI draws fuel' done' d'
          e' state' t =
        q_learning_testing_rewards_loop env reward_fn γ epsI draws fuel' done' d'
          e' state' t) := by
  have hit := ql_iter_nonterminal env reward_fn γ epsI draws fuel d e state ns rwd s s'
    prob qn mx e1 hp hstep hq hm hu hd
  exact ⟨hit.1, hit.2,
    fun fuel' d' e' state' t =>
      ql_loop_reward_independent env env' reward_fn γ epsI draws hnA hobs hdone hst
        fuel' d' e' state' t,
    fun fuel' done' d' e' state' t =>
      qltr_loop_reward_independent env env' reward_fn γ epsI draws hnA hobs hdone hst
        fuel' done' d' e' state' t⟩

/-- Witness for C5: concrete never-terminating environments differing only
in their native reward (0 versus 7), with the zero estimator. -/
theorem C5_injected_reward_pretransition_witness :
    (q_learning_loop neverDoneEnv zeroReward 1 0 draws0 1 0 e0 [0] () =
        q_learning_loop neverDoneEnv zeroReward 1 0 draws0 0 1 e0 [0] ())
    ∧ (q_learning_testing_rewards_loop neverDoneEnv zeroReward 1 0 draws0 1 false 0
          e0 [0] () =
        q_learning_testing_rewards_loop neverDoneEnv zeroReward 1 0 draws0 0 false 1
          e0 [0] ())
    ∧ (∀ (fuel' d' : Nat) (e' : Estimator) (state' : StateVec) (t : Unit),
        q_learning_loop neverDoneEnv7 zeroReward 1 0 draws0 fuel' d' e' state' t =
        q_learning_loop neverDoneEnv zeroReward 1 0 draws0 fuel' d' e' state' t)
    ∧ (∀ (fuel' : Nat) (done' : Bool) (d' : Nat) (e' : Estimator) (state' : StateVec)
        (t : Unit),
        q_learning_testing_rewards_loop neverDoneEnv7 zeroReward 1 0 draws0 fuel' done'
          d' e' state' t =
        q_learning_testing_rewards_loop neverDoneEnv zeroReward 1 0 draws0 fuel' done'
          d' e' state' t) := by
  have hsc : sampleChoice [(1:ℚ), 0, 0] (draws0 0) = 0 := sc100
  have hu : e0.update [0] (sampleChoice [(1:ℚ), 0, 0] (draws0 0))
      (zeroReward [0] + 1 * 0) = some e0 := by
    rw [hsc]
    simp [upd_e0, zeroReward]
  exact C5_injected_reward_pretransition neverDoneEnv neverDoneEnv7 zeroReward 1 0
    draws0 0 0 e0 [0] [0] 0 () () [1, 0, 0] [0, 0, 0] 0 e0 (egp_e0 [0]) rfl
    (e0_qValues [0]) max000 hu (by omega) rfl (fun a t => rfl) (fun a t => rfl)
    (fun a t => rfl)

/-- Claim C6: for any estimator prediction vector of length `nA ≥ 1` and
`ε ∈ [0,1]`, `epsilon_greedy_policy` returns a length-`nA` vector summing
to 1 whose entries are all at least `ε/nA`, with `ε/nA + (1−ε)` on the
first-encountered argmax action (the argmax entry is maximal and strictly
exceeds every earlier entry), and `greedy_policy` returns the one-hot
distribution on that argmax action. -/
theorem C6_policy_distribution_properties {e : Estimator} {obs : StateVec}
    {q A G : List ℚ} {epsilon : ℚ} {nA : Nat}
    (hq : e.qValues obs = some q) (hlen : q.length = nA) (hnA : 0 < nA)
    (he0 : 0 ≤ epsilon) (he1 : epsilon ≤ 1)
    (hA : epsilon_greedy_policy obs e epsilon nA = some A)
    (hG : greedy_policy e nA obs = some G) :
    A.length = nA ∧ A.sum = 1
    ∧ (∀ j, j < nA → epsilon / nA ≤ A.getD j 0)
    ∧ A.getD (argmaxIdx q) 0 = epsilon / nA + (1 - epsilon)
    ∧ (∀ j, j < nA → q.getD j 0 ≤ q.getD (argmaxIdx q) 0)
    ∧ (∀ j, j < argmaxIdx q → q.getD j 0 < q.getD (argmaxIdx q) 0)
    ∧ G.getD (argmaxIdx q) 0 = 1
    ∧ (∀ j, j < nA → j ≠ argmaxIdx q → G.getD j 0 = 0) := by
  have hqne : q ≠ [] := by
    intro hz
    rw [hz] at hlen
    simp at hlen
    omega
  have hb : argmaxIdx q < nA := by
    have h := argmaxIdx_lt_length q hqne
    omega
  have hne : (nA : ℚ) ≠ 0 := Nat.cast_ne_zero.mpr (by omega)
  simp only [epsilon_greedy_policy, hq, Option.some.injEq] at hA
  rw [getD_replicate_eq (epsilon / nA) nA (argmaxIdx q) hb] at hA
  subst hA
  simp only [greedy_policy, hq, Option.some.injEq] at hG
  rw [getD_replicate_eq 0 nA (argmaxIdx q) hb] at hG
  subst hG
  refine ⟨by simp, ?_, ?_, ?_, ?_, ?_, ?_, ?_⟩
  · rw [sum_set_replicate _ _ nA _ hb, Nat.cast_sub (by omega : 1 ≤ nA)]
    push_cast
    field_simp
    ring
  · intro j hj
    rw [getD_set_replicate _ _ nA _ j hb hj]
    by_cases hjb : j = argmaxIdx q
    · rw [if_pos hjb]
      linarith
    · simp [hjb]
  · rw [getD_set_replicate _ _ nA _ _ hb hb]
    simp
  · intro j hj
    exact getD_le_argmaxIdx q j (by omega)
  · intro j hj
    exact getD_lt_of_lt_argmaxIdx q j hj
  · rw [getD_set_replicate _ _ nA _ _ hb hb]
    norm_num
  · intro j hj hjb
    rw [getD_set_replicate _ _ nA _ j hb hj]
    simp [hjb]

/-- Witness for C6: the zero estimator with `ε = 1/2` and `nA = 3` yields
the distribution `[2/3, 1/6, 1/6]` and the greedy one-hot `[1, 0, 0]`. -/
theorem C6_policy_distribution_properties_witness :
    epsilon_greedy_policy [0] e0 (1/2) 3 = some [2/3, 1/6, 1/6]
    ∧ greedy_policy e0 3 [0] = some [1, 0, 0]
    ∧ [(2/3 : ℚ), 1/6, 1/6].sum = 1
    ∧ [(1 : ℚ), 0, 0].getD (argmaxIdx [(0 : ℚ), 0, 0]) 0 = 1 := by
  have hA : epsilon_greedy_policy [0] e0 (1/2) 3 = some [2/3, 1/6, 1/6] := by
    simp [epsilon_greedy_policy, e0_qValues, argmax000, List.replicate]
    norm_num
  have hG : greedy_policy e0 3 [0] = some [1, 0, 0] := by
    simp [greedy_policy, e0_qValues, argmax000, List.replicate]
  have h := C6_policy_distribution_properties (e0_qValues [0]) rfl (by simp)
    (by norm_num) (by norm_num) hA hG
  exact ⟨hA, hG, h.2.1, h.2.2.2.2.2.2.1⟩

/-- Claim C7: the effective exploration rate of episode `i` is
`ε₀ · decay^i`; for `ε₀ ≥ 0` and `decay ∈ (0,1]` the sequence is
monotonically non-increasing in `i`, and when `decay < 1` it falls below
any positive tolerance from some episode index on. -/
theorem C7_epsilon_decay_monotone_vanishing (epsilon epsilon_decay : ℚ)
    (he : 0 ≤ epsilon) (hd0 : 0 < epsilon_decay) (hd1 : epsilon_decay ≤ 1) :
    (∀ i j : Nat, i ≤ j → eps_eff epsilon epsilon_decay j ≤ eps_eff epsilon epsilon_decay i)
    ∧ (epsilon_decay < 1 → ∀ tol : ℚ, 0 < tol → ∃ N : Nat, ∀ i : Nat, N ≤ i →
        eps_eff epsilon epsilon_decay i < tol) := by
  constructor
  · intro i j hij
    unfold eps_eff
    exact mul_le_mul_of_nonneg_left (pow_le_pow_of_le_one (le_of_lt hd0) hd1 hij) he
  · intro hlt tol htol
    by_cases hz : epsilon = 0
    · exact ⟨0, fun i _ => by simp [eps_eff, hz, htol]⟩
    · have hpos : 0 < epsilon := lt_of_le_of_ne he (Ne.symm hz)
      obtain ⟨n, hn⟩ := exists_pow_lt_of_lt_one (div_pos htol hpos) hlt
      refine ⟨n, fun i hi => ?_⟩
      unfold eps_eff
      have h1 : epsilon_decay ^ i ≤ epsilon_decay ^ n :=
        pow_le_pow_of_le_one (le_of_lt hd0) hd1 hi
      have h2 : epsilon * epsilon_decay ^ i ≤ epsilon * epsilon_decay ^ n :=
        mul_le_mul_of_nonneg_left h1 he
      have h3 : epsilon * epsilon_decay ^ n < epsilon * (tol / epsilon) :=
        mul_lt_mul_of_pos_left hn hpos
      have h4 : epsilon * (tol / epsilon) = tol := by field_simp
      linarith

/-- Witness for C7: `ε₀ = 1`, `decay = 1/2`. -/
theorem C7_epsilon_decay_monotone_vanishing_witness :
    (0 : ℚ) ≤ 1 ∧ (0 : ℚ) < 1/2 ∧ (1 : ℚ)/2 ≤ 1
    ∧ ((∀ i j : Nat, i ≤ j → eps_eff 1 (1/2) j ≤ eps_eff 1 (1/2) i)
      ∧ ((1 : ℚ)/2 < 1 → ∀ tol : ℚ, 0 < tol → ∃ N : Nat, ∀ i : Nat, N ≤ i →
          eps_eff 1 (1/2) i < tol)) :=
  ⟨by norm_num, by norm_num, by norm_num,
    C7_epsilon_decay_monotone_vanishing 1 (1/2) (by norm_num) (by norm_num) (by norm_num)⟩

/-- Claim C8: a freshly constructed `Estimator` answers `predict` for
every action argument (omitted, or any index below 3) without the
untrained-model error: the constructor warm-fits each model once with a
featurized reset state and target 0, so `predict` always returns a
value. -/
theorem C8_warmup_predict_defined {σ : Type} (env : Env σ)
    (scaler : StateVec → StateVec) (featurizer : StateVec → FeatureVec) (s : σ)
    (st : StateVec) (a : Option Nat)
    (ha : a = none ∨ ∃ i, a = some i ∧ i < 3) :
    ((Estimator.construct env scaler featurizer s).1.predict st a).isSome = true := by
  rcases ha with h | ⟨i, h, hi⟩
  · subst h
    simp [Estimator.predict, noneOrZero, Estimator.qValues, Estimator.construct,
      warmupModels, SGDRegressor.onlineFit, SGDRegressor.predict, List.mapM, List.mapM.loop]
  · subst h
    interval_cases i
    · simp [Estimator.predict, noneOrZero, Estimator.qValues, Estimator.construct,
        warmupModels, SGDRegressor.onlineFit, SGDRegressor.predict, List.mapM, List.mapM.loop]
    · simp [Estimator.predict, noneOrZero, Estimator.construct, warmupModels,
        SGDRegressor.onlineFit, SGDRegressor.predict]
    · simp [Estimator.predict, noneOrZero, Estimator.construct, warmupModels,
        SGDRegressor.onlineFit, SGDRegressor.predict]

/-- Witness for C8: action 2 on a concrete environment. -/
theorem C8_warmup_predict_defined_witness :
    ((some 2 : Option Nat) = none ∨ ∃ i, (some 2 : Option Nat) = some i ∧ i < 3)
    ∧ ((Estimator.construct doneEnv id (fun _ => []) ()).1.predict [0] (some 2)).isSome =
        true :=
  ⟨Or.inr ⟨2, rfl, by omega⟩,
    C8_warmup_predict_defined doneEnv id (fun _ => []) () [0] (some 2)
      (Or.inr ⟨2, rfl, by omega⟩)⟩

/-- Claim C9: with `ε = 0` the epsilon-greedy distribution coincides with
the greedy one-hot on the first-index argmax, and inverse-CDF sampling
from it returns the argmax action for every uniform draw in `[0,1)` — so
two runs over the same estimator state and observations select identical
actions. -/
theorem C9_zero_epsilon_deterministic {e : Estimator} {obs : StateVec} {q : List ℚ}
    {nA : Nat} (hq : e.qValues obs = some q) (hlen : q.length = nA) (hnA : 0 < nA)
    (r₁ r₂ : ℚ) (hr₁ : 0 ≤ r₁) (hr₁' : r₁ < 1) (hr₂ : 0 ≤ r₂) (hr₂' : r₂ < 1) :
    epsilon_greedy_policy obs e 0 nA = greedy_policy e nA obs
    ∧ ∃ A, epsilon_greedy_policy obs e 0 nA = some A
        ∧ sampleChoice A r₁ = argmaxIdx q
        ∧ sampleChoice A r₂ = argmaxIdx q := by
  have hqne : q ≠ [] := by
    intro hz
    rw [hz] at hlen
    simp at hlen
    omega
  have hb : argmaxIdx q < nA := by
    have h := argmaxIdx_lt_length q hqne
    omega
  have heq : epsilon_greedy_policy obs e 0 nA =
      some ((List.replicate nA (0:ℚ)).set (argmaxIdx q) 1) := by
    simp only [epsilon_greedy_policy, hq, zero_div]
    rw [getD_replicate_eq 0 nA (argmaxIdx q) hb]
    norm_num
  have heq' : greedy_policy e nA obs =
      some ((List.replicate nA (0:ℚ)).set (argmaxIdx q) 1) := by
    simp only [greedy_policy, hq]
    rw [getD_replicate_eq 0 nA (argmaxIdx q) hb]
    norm_num
  have hsplit : (List.replicate nA (0:ℚ)).set (argmaxIdx q) 1 =
      List.replicate (argmaxIdx q) 0 ++ 1 :: List.replicate (nA - (argmaxIdx q + 1)) 0 :=
    set_replicate_split 0 1 nA _ hb
  have hs : ∀ r : ℚ, 0 ≤ r → r < 1 →
      sampleChoice ((List.replicate nA (0:ℚ)).set (argmaxIdx q) 1) r = argmaxIdx q := by
    intro r h0 h1
    rw [hsplit, sampleChoice_zeros_then_one _ _ r
      (fun y hy => List.eq_of_mem_replicate hy) h0 h1]
    simp
  exact ⟨heq.trans heq'.symm, ⟨_, heq, hs r₁ hr₁ hr₁', hs r₂ hr₂ hr₂'⟩⟩

/-- Witness for C9: the zero estimator, draws 0 and 1/2. -/
theorem C9_zero_epsilon_deterministic_witness :
    epsilon_greedy_policy [0] e0 0 3 = greedy_policy e0 3 [0]
    ∧ ∃ A, epsilon_greedy_policy [0] e0 0 3 = some A
        ∧ sampleChoice A 0 = argmaxIdx [(0 : ℚ), 0, 0]
        ∧ sampleChoice A (1/2) = argmaxIdx [(0 : ℚ), 0, 0] :=
  C9_zero_epsilon_deterministic (e0_qValues [0]) rfl (by simp) 0 (1/2)
    (by norm_num) (by norm_num) (by norm_num) (by norm_num)

/-- Claim C10: the constructor's environment side effect: it calls
`env.reset()` once per model — three times in all — threading the
environment state through; each model is warm-fitted on the featurization
of its own (possibly different) reset observation, as the closed form
shows, and on a counting environment the episode state really changes and
the successive reset observations really differ. -/
theorem C10_constructor_resets_env_three_times {σ : Type} (env : Env σ)
    (scaler : StateVec → StateVec) (featurizer : StateVec → FeatureVec) (s : σ) :
    (Estimator.construct env scaler featurizer s =
      ({ models := [
            SGDRegressor.init.onlineFit (featurizer (scaler (env.reset s).1)) 0,
            SGDRegressor.init.onlineFit
              (featurizer (scaler (env.reset (env.reset s).2).1)) 0,
            SGDRegressor.init.onlineFit
              (featurizer (scaler (env.reset (env.reset (env.reset s).2).2).1)) 0],
          scaler := scaler, featurizer := featurizer },
        (env.reset (env.reset (env.reset s).2).2).2))
    ∧ (Estimator.construct countEnv id (fun st => st) 0).2 = 3
    ∧ (countEnv.reset 0).1 ≠ (countEnv.reset (countEnv.reset 0).2).1 := by
  refine ⟨rfl, ?_, ?_⟩
  · norm_num [Estimator.construct, warmupModels, countEnv]
  · norm_num [countEnv]

end QL
